import Mathlib

/-!
Verification of the virtual-texturing data plane (crate `virt_texture`).

Shallow embedding of the page-oriented texture storage layer (`src/storage.rs`),
the mip-level generator chain embedded in that file, and the page-identifier
decoding / feedback reduction (`src/streaming.rs`).  Machine integers (`u8`,
`u16`, `usize`) are embedded as `Nat`; wherever the Rust code can overflow or
panic, the embedding models the check explicitly.  Fallible operations return
an `Outcome`, which distinguishes ordinary `Result` errors from panics
(assertion failures, slice-bounds violations, arithmetic overflow).

Note: `src/storage/mip_generator.rs` is not declared as a module anywhere in
the crate (`lib.rs` declares only `camera`, `pipelines`, `setup`, `storage`,
`streaming`, `textures`, `vertex`), so it is dead code; the authoritative
`MipLevelGen` is the one defined inside `src/storage.rs`.
-/

/-- `PAGE_SIZE` from `src/storage.rs`: total page side in texels. -/
def PAGE_SIZE : Nat := 128

/-- `PAGE_BORDER_SIZE` from `src/storage.rs`: border width on each page edge. -/
def PAGE_BORDER_SIZE : Nat := 4

/-- `PAGE_STRIDE` from `src/storage.rs`: useful (non-border) texels per page side. -/
def PAGE_STRIDE : Nat := PAGE_SIZE - 2 * PAGE_BORDER_SIZE

/-- `TextureMetadata::MAX_TEXTURE_SIZE` from `src/storage.rs` (`1 << 11`). -/
def MAX_TEXTURE_SIZE : Nat := 1 <<< 11

/-- The two variants of `TextureStorageError` from `src/storage.rs`:
`IoError` (wrapping an OS error) and `Deserialization`. -/
inductive TextureStorageError where
  | ioError
  | deserialization
deriving DecidableEq, Repr

/-- Result of executing a piece of Rust code: a normal value, a recoverable
`Err` of the crate's error enum, or a panic (assertion failure, slice
out-of-bounds, arithmetic overflow). -/
inductive Outcome (α : Type) where
  | ok (a : α)
  | err (e : TextureStorageError)
  | panic (msg : String)
deriving DecidableEq, Repr

/-- True exactly on the `panic` constructor. -/
def Outcome.isPanic {α : Type} : Outcome α → Bool
  | .panic _ => true
  | _ => false

/-- True exactly on the `panic` constructor. -/
def Outcome.isOk {α : Type} : Outcome α → Bool
  | .ok _ => true
  | _ => false

/-- The `TextureMetadata` struct from `src/storage.rs`: `side_len : u16`,
`bytes_per_texel : u8`, `mip_levels : u8`, all embedded as `Nat`. -/
structure TextureMetadata where
  side_len : Nat
  bytes_per_texel : Nat
  mip_levels : Nat
deriving DecidableEq, Repr

/-- `TextureMetadata::from_mip` from `src/storage.rs`:
asserts `mip_levels <= MAX_TEXTURE_SIZE.ilog2()` and `bytes_per_texel == 4`
(in that order), then builds the metadata with `side_len = 1 << mip_levels`
(a `u16` shift, hence reduced modulo `2 ^ 16`; for the values admitted by the
first assertion the reduction is the identity).  `u16::ilog2` on the nonzero
constant `MAX_TEXTURE_SIZE` is `Nat.log2`. -/
def TextureMetadata.from_mip (mip_levels bytes_per_texel : Nat) :
    Outcome TextureMetadata :=
  if mip_levels ≤ Nat.log2 MAX_TEXTURE_SIZE then
    if bytes_per_texel = 4 then
      .ok ⟨(1 <<< mip_levels) % 2 ^ 16, bytes_per_texel, mip_levels⟩
    else .panic "assertion failed: bytes_per_texel == 4"
  else .panic "assertion failed: mip_levels <= Self::MAX_TEXTURE_SIZE.ilog2()"

theorem log2_MAX_TEXTURE_SIZE : Nat.log2 MAX_TEXTURE_SIZE = 11 := by
  have h : MAX_TEXTURE_SIZE = 2 ^ 11 := by decide
  rw [h, Nat.log2_eq_log_two, Nat.log_pow Nat.one_lt_two]

/-- Claim C6 counterexample: `TextureMetadata::from_mip(12, 4)` does not
succeed — it fails the `mip_levels <= MAX_TEXTURE_SIZE.ilog2()` assertion,
because `MAX_TEXTURE_SIZE = 2 ^ 11` has `ilog2 = 11 < 12`.  This refutes the
claim that `from_mip(mip, 4)` succeeds for every `mip` in `[0, 12]`. -/
theorem from_mip_12_panics :
    (TextureMetadata.from_mip 12 4).isPanic = true := by
  rw [TextureMetadata.from_mip, log2_MAX_TEXTURE_SIZE]
  simp [Outcome.isPanic]

/-- Claim C6 (amended): for all `mip` in `[0, 11]` (not `[0, 12]`),
`TextureMetadata::from_mip(mip, 4)` passes both assertions and returns
metadata with `side_len = 2 ^ mip` and `mip_levels = mip`. -/
theorem from_mip_ok (mip : Nat) (h : mip ≤ 11) :
    TextureMetadata.from_mip mip 4 = .ok ⟨2 ^ mip, 4, mip⟩ := by
  rw [TextureMetadata.from_mip, log2_MAX_TEXTURE_SIZE, if_pos h, if_pos rfl]
  have hlt : 1 <<< mip % 2 ^ 16 = 2 ^ mip := by
    rw [Nat.shiftLeft_eq, one_mul, Nat.mod_eq_of_lt]
    exact Nat.pow_lt_pow_right Nat.one_lt_two (lt_of_le_of_lt h (by norm_num))
  rw [hlt]

/-- Witness for the amended claim C6 at its boundary `mip = 11`. -/
theorem from_mip_ok_witness :
    TextureMetadata.from_mip 11 4 = .ok ⟨2048, 4, 11⟩ := by
  have h := from_mip_ok 11 (le_refl 11)
  simpa using h

/-- The `PageId` struct from `src/streaming.rs`: `page_x : u16`, `page_y : u16`,
`mip_level : u8`, embedded as `Nat`. -/
structure PageId where
  page_x : Nat
  page_y : Nat
  mip_level : Nat
deriving DecidableEq, Repr

/-- `PageId::from_bytes` from `src/streaming.rs`, on one 4-byte chunk
`[b0, b1, b2, b3]` of the feedback buffer.  The `u8`/`u16` shifts and ors are
wrap-free for byte inputs (`b_i < 256`), so `Nat` operations are exact:

    page_x_high = b0;  page_x_low = b1 >> 2;
    page_y_high = b1 & 0b11;  page_y_mid = b2;  page_y_low = b3 >> 4;
    mip_level = b3 & 0b1111;
    page_x = page_x_low | page_x_high << 8;
    page_y = page_y_low | page_y_mid << 2 | page_y_high << 8;  -/
def PageId.from_bytes (b0 b1 b2 b3 : Nat) : PageId :=
  let page_x_high := b0
  let page_x_low := b1 >>> 2
  let page_y_high := b1 &&& 3
  let page_y_mid := b2
  let page_y_low := b3 >>> 4
  let mip_level := b3 &&& 15
  { page_x := page_x_low ||| (page_x_high <<< 8)
    page_y := page_y_low ||| (page_y_mid <<< 2) ||| (page_y_high <<< 8)
    mip_level := mip_level }

/-- `Ord for PageId` from `src/streaming.rs`: compare by `mip_level`, then
`page_y`, then `page_x` (each an ascending `Nat` compare), combined with
`Ordering::then`. -/
def PageId.cmp (a b : PageId) : Ordering :=
  (compare a.mip_level b.mip_level).then
    ((compare a.page_y b.page_y).then (compare a.page_x b.page_x))

/-- The strict lexicographic order on `(mip_level, page_y, page_x)` that
`PageId.cmp` decides. -/
def PageId.lexLt (a b : PageId) : Prop :=
  a.mip_level < b.mip_level ∨
    (a.mip_level = b.mip_level ∧
      (a.page_y < b.page_y ∨ (a.page_y = b.page_y ∧ a.page_x < b.page_x)))

theorem PageId.cmp_eq_lt_iff {a b : PageId} : a.cmp b = .lt ↔ a.lexLt b := by
  simp only [PageId.cmp, PageId.lexLt, Ordering.then_eq_lt, Ordering.then_eq_eq,
    Nat.compare_eq_lt, Nat.compare_eq_eq]

theorem PageId.cmp_eq_eq_iff {a b : PageId} : a.cmp b = .eq ↔ a = b := by
  simp only [PageId.cmp, Ordering.then_eq_eq, Nat.compare_eq_eq]
  constructor
  · rintro ⟨h1, h2, h3⟩
    cases a; cases b; simp_all
  · rintro rfl
    exact ⟨rfl, rfl, rfl⟩

theorem PageId.cmp_eq_gt_iff {a b : PageId} : a.cmp b = .gt ↔ b.lexLt a := by
  simp only [PageId.cmp, PageId.lexLt, Ordering.then_eq_gt, Ordering.then_eq_eq,
    Nat.compare_eq_gt, Nat.compare_eq_eq]
  constructor
  · rintro (h | ⟨h1, h | ⟨h2, h3⟩⟩)
    · exact Or.inl h
    · exact Or.inr ⟨h1.symm, Or.inl h⟩
    · exact Or.inr ⟨h1.symm, Or.inr ⟨h2.symm, h3⟩⟩
  · rintro (h | ⟨h1, h | ⟨h2, h3⟩⟩)
    · exact Or.inl h
    · exact Or.inr ⟨h1.symm, Or.inl h⟩
    · exact Or.inr ⟨h1.symm, Or.inr ⟨h2.symm, h3⟩⟩

theorem PageId.lexLt_trans {a b c : PageId} (h1 : a.lexLt b) (h2 : b.lexLt c) :
    a.lexLt c := by
  unfold PageId.lexLt at h1 h2 ⊢
  omega

theorem PageId.lexLt_total (a b : PageId) :
    a.lexLt b ∨ a = b ∨ b.lexLt a := by
  rcases Nat.lt_trichotomy a.mip_level b.mip_level with h | h | h
  · exact Or.inl (Or.inl h)
  · rcases Nat.lt_trichotomy a.page_y b.page_y with h2 | h2 | h2
    · exact Or.inl (Or.inr ⟨h, Or.inl h2⟩)
    · rcases Nat.lt_trichotomy a.page_x b.page_x with h3 | h3 | h3
      · exact Or.inl (Or.inr ⟨h, Or.inr ⟨h2, h3⟩⟩)
      · refine Or.inr (Or.inl ?h)
        cases a; cases b; simp_all
      · exact Or.inr (Or.inr (Or.inr ⟨h.symm, Or.inr ⟨h2.symm, h3⟩⟩))
    · exact Or.inr (Or.inr (Or.inr ⟨h.symm, Or.inl h2⟩))
  · exact Or.inr (Or.inr (Or.inl h))

/-- `chunks_exact(4)` over the feedback byte buffer: successive complete
4-byte chunks, discarding any incomplete remainder (as
`slice::chunks_exact` does). -/
def chunks4 : List Nat → List (Nat × Nat × Nat × Nat)
  | b0 :: b1 :: b2 :: b3 :: rest => (b0, b1, b2, b3) :: chunks4 rest
  | _ => []

/-- The page identifiers decoded from a raw feedback buffer:
`buffer_view.chunks_exact(4).map(PageId::from_bytes)` from
`StreamingHandle::new` in `src/streaming.rs`. -/
def decodedPages (bytes : List Nat) : List PageId :=
  (chunks4 bytes).map fun q => PageId.from_bytes q.1 q.2.1 q.2.2.1 q.2.2.2

/-- The boolean order used to model
`required_pages.sort_unstable_by(|a, b| a.cmp(b).reverse())`: element `a` may
precede element `b` exactly when the comparator `a.cmp(b).reverse()` is not
`Greater`, i.e. when `a.cmp(b) ≠ Less`. -/
def pageLe (a b : PageId) : Bool := a.cmp b ≠ Ordering.lt

/-- `Vec::dedup` from `src/streaming.rs` line 39: removes consecutive
repeated elements, keeping the first of each run. -/
def dedupConsecutive : List PageId → List PageId
  | [] => []
  | [a] => [a]
  | a :: b :: t =>
    if b = a then dedupConsecutive (a :: t)
    else a :: dedupConsecutive (b :: t)

/-- The feedback reduction of `StreamingHandle::new` (`src/streaming.rs`
lines 33–39): decode every complete 4-byte chunk, sort by the reversed
canonical comparator, then remove consecutive duplicates.  The unstable Rust
sort is modelled by `List.mergeSort`; since the comparator never returns
`Equal` on distinct values (`PageId.cmp_eq_eq_iff`), every correct sort
produces this same list. -/
def requiredPages (bytes : List Nat) : List PageId :=
  dedupConsecutive ((decodedPages bytes).mergeSort pageLe)

/-- Strict descending adjacency in the canonical `PageId` order. -/
def pageGt (a b : PageId) : Prop := a.cmp b = Ordering.gt

instance : IsTrans PageId pageGt where
  trans a b c h1 h2 := by
    rw [pageGt, PageId.cmp_eq_gt_iff] at h1 h2 ⊢
    exact PageId.lexLt_trans h2 h1

theorem dedupConsecutive_sublist (l : List PageId) :
    (dedupConsecutive l).Sublist l := by
  induction l using dedupConsecutive.induct with
  | case1 => simp [dedupConsecutive]
  | case2 a => simp [dedupConsecutive]
  | case3 b t ih =>
    rw [dedupConsecutive, if_pos rfl]
    exact ih.trans (List.sublist_cons_self b (b :: t))
  | case4 a b t hne ih =>
    rw [dedupConsecutive, if_neg hne]
    exact ih.cons_cons a

theorem mem_dedupConsecutive {x : PageId} {l : List PageId} :
    x ∈ dedupConsecutive l ↔ x ∈ l := by
  induction l using dedupConsecutive.induct with
  | case1 => simp [dedupConsecutive]
  | case2 a => simp [dedupConsecutive]
  | case3 b t ih =>
    rw [dedupConsecutive, if_pos rfl, ih]
    simp only [List.mem_cons]
    tauto
  | case4 a b t hne ih =>
    rw [dedupConsecutive, if_neg hne]
    simp only [List.mem_cons] at ih ⊢
    rw [ih]

theorem dedupConsecutive_cons_eq (x : PageId) (l : List PageId) :
    ∃ t, dedupConsecutive (x :: l) = x :: t := by
  generalize hl : l.length = n
  induction n using Nat.strong_induction_on generalizing x l with
  | _ n ih =>
    match l with
    | [] => exact ⟨[], by rw [dedupConsecutive]⟩
    | y :: t =>
      by_cases h : y = x
      · subst h
        rw [dedupConsecutive, if_pos rfl]
        refine ih t.length ?hlt y t rfl
        rw [← hl]
        simp
      · rw [dedupConsecutive, if_neg h]
        exact ⟨dedupConsecutive (y :: t), rfl⟩

theorem chain'_ne_dedupConsecutive (l : List PageId) :
    (dedupConsecutive l).Chain' (fun a b => a ≠ b) := by
  induction l using dedupConsecutive.induct with
  | case1 => simp [dedupConsecutive]
  | case2 a => simp [dedupConsecutive]
  | case3 b t ih =>
    rw [dedupConsecutive, if_pos rfl]
    exact ih
  | case4 a b t hne ih =>
    rw [dedupConsecutive, if_neg hne]
    obtain ⟨t2, h2⟩ := dedupConsecutive_cons_eq b t
    rw [h2] at ih ⊢
    exact List.chain'_cons.mpr ⟨fun hab => hne hab.symm, ih⟩

theorem PageId.lexLt_asymm {a b : PageId} (h : a.lexLt b) : ¬b.lexLt a := by
  unfold PageId.lexLt at h ⊢
  omega

theorem PageId.cmp_not_lt_iff {a b : PageId} :
    a.cmp b ≠ .lt ↔ (a = b ∨ b.lexLt a) := by
  constructor
  · intro h
    rcases hc : a.cmp b with _ | _ | _
    · exact absurd hc h
    · exact Or.inl (PageId.cmp_eq_eq_iff.mp hc)
    · exact Or.inr (PageId.cmp_eq_gt_iff.mp hc)
  · rintro (rfl | hgt) hlt
    · have h2 := PageId.cmp_eq_lt_iff.mp hlt
      unfold PageId.lexLt at h2
      omega
    · exact PageId.lexLt_asymm (PageId.cmp_eq_lt_iff.mp hlt) hgt

theorem pageLe_trans (a b c : PageId) (h1 : pageLe a b = true)
    (h2 : pageLe b c = true) : pageLe a c = true := by
  simp only [pageLe, decide_eq_true_eq, PageId.cmp_not_lt_iff] at h1 h2 ⊢
  rcases h1 with rfl | h1
  · exact h2
  · rcases h2 with rfl | h2
    · exact Or.inr h1
    · exact Or.inr (PageId.lexLt_trans h2 h1)

theorem pageLe_total (a b : PageId) : (pageLe a b || pageLe b a) = true := by
  simp only [pageLe, Bool.or_eq_true, decide_eq_true_eq, PageId.cmp_not_lt_iff]
  rcases PageId.lexLt_total a b with h | h | h
  · exact Or.inr (Or.inr h)
  · exact Or.inl (Or.inl h)
  · exact Or.inl (Or.inr h)

theorem pageGt_of_pageLe_of_ne {a b : PageId} (h1 : pageLe a b = true)
    (h2 : a ≠ b) : pageGt a b := by
  simp only [pageLe, decide_eq_true_eq] at h1
  rcases hc : a.cmp b with _ | _ | _
  · exact absurd hc h1
  · exact absurd (PageId.cmp_eq_eq_iff.mp hc) h2
  · exact hc

theorem chain'_and_of_chain' {R S : PageId → PageId → Prop} {l : List PageId}
    (hr : l.Chain' R) (hs : l.Chain' S) :
    l.Chain' fun a b => R a b ∧ S a b := by
  rw [List.chain'_iff_get] at hr hs ⊢
  intro i hi
  exact ⟨hr i hi, hs i hi⟩

/-- Claim C5: for a feedback byte buffer whose length is a multiple of 4,
decoding every 4-byte chunk, sorting by the reversed canonical comparator and
removing adjacent duplicates (the reduction performed by the streaming worker
in `StreamingHandle::new`) yields a list that is strictly descending in the
canonical `(mip_level, page_y, page_x)` order — coarsest (largest) mip level
first — and that contains each distinct decoded `PageId` exactly once. -/
theorem requiredPages_spec (bytes : List Nat) (h : bytes.length % 4 = 0) :
    (requiredPages bytes).Pairwise pageGt ∧
    (∀ p : PageId, p ∈ requiredPages bytes ↔ p ∈ decodedPages bytes) ∧
    (∀ p ∈ decodedPages bytes, (requiredPages bytes).count p = 1) := by
  have hs : ((decodedPages bytes).mergeSort pageLe).Pairwise
      fun a b => pageLe a b = true :=
    List.sorted_mergeSort pageLe_trans pageLe_total (decodedPages bytes)
  have hmem : ∀ p : PageId, p ∈ requiredPages bytes ↔ p ∈ decodedPages bytes := by
    intro p
    rw [requiredPages, mem_dedupConsecutive, List.mem_mergeSort]
  have hle : (requiredPages bytes).Pairwise fun a b => pageLe a b = true :=
    List.Pairwise.sublist (dedupConsecutive_sublist _) hs
  have hgt : (requiredPages bytes).Pairwise pageGt := by
    have hchain := chain'_and_of_chain' hle.chain'
      (chain'_ne_dedupConsecutive ((decodedPages bytes).mergeSort pageLe))
    have hchain2 : (requiredPages bytes).Chain' pageGt :=
      List.Chain'.imp (fun a b hab => pageGt_of_pageLe_of_ne hab.1 hab.2) hchain
    exact List.chain'_iff_pairwise.mp hchain2
  have hirr : ∀ x y : PageId, pageGt x y → x ≠ y := by
    intro x y hxy hEq
    subst hEq
    unfold pageGt at hxy
    rw [PageId.cmp_eq_eq_iff.mpr rfl] at hxy
    exact Ordering.noConfusion hxy
  refine ⟨hgt, hmem, fun p hp => ?hcount⟩
  have hnodup : (requiredPages bytes).Nodup := hgt.imp fun h => hirr _ _ h
  exact List.count_eq_one_of_mem hnodup ((hmem p).mpr hp)

/-- A concrete feedback buffer: two copies of the quadruple `[0,4,0,16]`, one
`[0,0,0,1]` (mip 1), and one `[0,4,0,32]`. -/
def demoFeedback : List Nat :=
  [0, 4, 0, 16, 0, 4, 0, 16, 0, 0, 0, 1, 0, 4, 0, 32]

/-- Witness for claim C5 on `demoFeedback`, whose length 16 is a multiple
of 4. -/
theorem requiredPages_spec_witness :
    (requiredPages demoFeedback).Pairwise pageGt ∧
    (∀ p : PageId, p ∈ requiredPages demoFeedback ↔ p ∈ decodedPages demoFeedback) ∧
    (∀ p ∈ decodedPages demoFeedback, (requiredPages demoFeedback).count p = 1) :=
  requiredPages_spec demoFeedback (by decide)

/-- Claim C2 counterexample: decoding the byte quadruple
`[0x00, 0x04, 0x00, 0x10]` with `PageId::from_bytes` yields
`page_y = 1` (`page_y_low = 0x10 >> 4 = 1` is ored in at bits 0–3), not
`page_y = 0` as the claim asserts; `page_x = 1` and `mip_level = 0` do hold. -/
theorem from_bytes_vector_counterexample :
    PageId.from_bytes 0x00 0x04 0x00 0x10 = ⟨1, 1, 0⟩ ∧
      PageId.mk 1 1 0 ≠ ⟨1, 0, 0⟩ := by
  decide

/-- Claim C2 (amended): for byte inputs, `PageId::from_bytes` reconstructs
`page_x` with byte0 at bits 8–15 (not bits 6–13) and bits 7–2 of byte1 at
bits 0–5, i.e. `page_x = 256 * b0 + b1 / 4` (bits 6–7 are always zero);
`page_y` as the bitwise or of byte3's high nibble at bits 0–3, byte2 at bits
2–9, and byte1's low two bits at bits 8–9 — the three contributions overlap
and are or-merged, so `page_y < 1024`; and `mip_level = b3 % 16` from byte3's
low nibble.  Decoding `[0x00, 0x04, 0x00, 0x10]` yields `page_x = 1`,
`page_y = 1`, `mip_level = 0`. -/
theorem from_bytes_fields (b0 b1 b2 b3 : Nat) (h0 : b0 < 256) (h1 : b1 < 256)
    (h2 : b2 < 256) (h3 : b3 < 256) :
    (PageId.from_bytes b0 b1 b2 b3).page_x = 256 * b0 + b1 / 4 ∧
    (PageId.from_bytes b0 b1 b2 b3).page_y =
      ((b3 / 16) ||| (b2 * 4)) ||| ((b1 % 4) * 256) ∧
    (PageId.from_bytes b0 b1 b2 b3).page_y < 1024 ∧
    (PageId.from_bytes b0 b1 b2 b3).mip_level = b3 % 16 := by
  unfold PageId.from_bytes
  simp only
  have hand3 : b1 &&& 3 = b1 % 4 := by
    have h := Nat.and_pow_two_sub_one_eq_mod b1 2
    norm_num at h
    exact h
  have hand15 : b3 &&& 15 = b3 % 16 := by
    have h := Nat.and_pow_two_sub_one_eq_mod b3 4
    norm_num at h
    exact h
  refine ⟨?hx, ?hy, ?hybound, hand15⟩
  case hx =>
    rw [Nat.shiftRight_eq_div_pow, Nat.shiftLeft_eq, Nat.lor_comm]
    have hlow : b1 / 2 ^ 2 < 2 ^ 8 := by omega
    have h := (Nat.mul_add_lt_is_or hlow b0).symm
    rw [mul_comm b0 (2 ^ 8)] at *
    rw [h]
    norm_num
  case hy =>
    rw [Nat.shiftRight_eq_div_pow, Nat.shiftLeft_eq, Nat.shiftLeft_eq, hand3]
  case hybound =>
    rw [Nat.shiftRight_eq_div_pow, Nat.shiftLeft_eq, Nat.shiftLeft_eq, hand3]
    have ha : b3 / 2 ^ 4 < 2 ^ 10 := by omega
    have hb : b2 * 2 ^ 2 < 2 ^ 10 := by omega
    have hc : b1 % 4 * 2 ^ 8 < 2 ^ 10 := by
      have := Nat.mod_lt b1 (y := 4) (by omega)
      omega
    calc b3 / 2 ^ 4 ||| b2 * 2 ^ 2 ||| b1 % 4 * 2 ^ 8 < 2 ^ 10 :=
      Nat.or_lt_two_pow (Nat.or_lt_two_pow ha hb) hc
    _ = 1024 := by norm_num

/-- Witness for the amended claim C2 at the spec's own test vector. -/
theorem from_bytes_fields_witness :
    (PageId.from_bytes 0 4 0 16).page_x = 256 * 0 + 4 / 4 ∧
    (PageId.from_bytes 0 4 0 16).page_y =
      ((16 / 16) ||| (0 * 4)) ||| ((4 % 4) * 256) ∧
    (PageId.from_bytes 0 4 0 16).page_y < 1024 ∧
    (PageId.from_bytes 0 4 0 16).mip_level = 16 % 16 :=
  from_bytes_fields 0 4 0 16 (by decide) (by decide) (by decide) (by decide)

/-- The `TextureStorage` struct from `src/storage.rs`: a directory path and
the texture metadata. -/
structure TextureStorage where
  directory : String
  metadata : TextureMetadata
deriving DecidableEq, Repr

/-- The page count that `TextureStorage::write_row` computes from the length
of its `data` buffer:
`(data.len() / bytes_per_texel / PAGE_SIZE - 2 * PAGE_BORDER_SIZE) / PAGE_STRIDE`. -/
def impliedPageCount (bytes_per_texel len : Nat) : Nat :=
  (len / bytes_per_texel / PAGE_SIZE - 2 * PAGE_BORDER_SIZE) / PAGE_STRIDE

/-- The bytes written to the row file by `TextureStorage::write_row`
(`src/storage.rs` lines 84–93): for each page and each of its `PAGE_SIZE`
sub-rows, the slice `data[start..start + PAGE_SIZE]` with
`start = page * PAGE_STRIDE + page_row * texture_texel_width` — the offsets
the code computes (note they count texels but index into a byte slice). -/
def rowFileBytes (texture_texel_width page_count : Nat) (data : List Nat) :
    List Nat :=
  (List.range page_count).flatMap fun page =>
    (List.range PAGE_SIZE).flatMap fun page_row =>
      (data.drop (page * PAGE_STRIDE + page_row * texture_texel_width)).take
        PAGE_SIZE

/-- The subset of `std::fs::OpenOptions` state that `open_row_file` touches:
`OpenOptions::new()` starts with every flag cleared, and the source sets only
`truncate(true)`. -/
structure OpenOptions where
  read : Bool
  write : Bool
  append : Bool
  truncate : Bool
  create : Bool
deriving DecidableEq, Repr

/-- `std::fs::OpenOptions::new()`: all flags cleared. -/
def OpenOptions.new : OpenOptions := ⟨false, false, false, false, false⟩

/-- The options `write_row` passes to `open_row_file`
(`src/storage.rs` line 83): `std::fs::OpenOptions::new().truncate(true)`. -/
def rowOpenOptions : OpenOptions := { OpenOptions.new with truncate := true }

/-- The flag validation `std::fs::OpenOptions::open` performs before touching
the file system: an access mode (`read`, `write` or `append`) must be set,
and `truncate`/`create` require write access; invalid combinations fail
deterministically with `InvalidInput`. -/
def OpenOptions.accessValid (o : OpenOptions) : Bool :=
  (o.read || o.write || o.append) &&
    (!(o.truncate || o.create) || (o.write || o.append))

/-- `TextureStorage::open_row_file` from `src/storage.rs` lines 143–152:
`opts.open(directory.join("{mip}-{row}")).map_err(IoError)`.  The open fails
with an I/O error whenever the option flags are invalid — which they always
are for `rowOpenOptions` (truncate with no access mode) — so the success
branch, whose file-system effects are therefore unreachable in this program,
is left abstract. -/
def TextureStorage.open_row_file (s : TextureStorage) (mip row : Nat)
    (opts : OpenOptions) : Outcome Unit :=
  if opts.accessValid then .ok () else .err .ioError

/-- `TextureStorage::write_row` from `src/storage.rs` lines 76–96.  The
`usize` subtraction in the page-count computation panics on underflow (debug
profile); the `assert_eq!` compares the implied page count with
`side_len >> mip`; then the row file is opened with
`OpenOptions::new().truncate(true)` — no access mode, so the open always
fails with `InvalidInput` and `write_row` returns `Err(IoError)` having
written nothing.  The write loop (lines 84–93), reached only on a successful
open, would emit `rowFileBytes`; each `file.write_all(&data[start..end])`
call panics if its slice is out of bounds. -/
def TextureStorage.write_row (s : TextureStorage) (mip row : Nat)
    (data : List Nat) : Outcome (List Nat) :=
  if data.length / s.metadata.bytes_per_texel / PAGE_SIZE <
      2 * PAGE_BORDER_SIZE then
    .panic "attempt to subtract with overflow"
  else if impliedPageCount s.metadata.bytes_per_texel data.length =
      s.metadata.side_len >>> mip then
    match s.open_row_file mip row rowOpenOptions with
    | .err e => .err e
    | .panic m => .panic m
    | .ok _ =>
      if h : ∀ p < impliedPageCount s.metadata.bytes_per_texel data.length,
          ∀ r < PAGE_SIZE,
          p * PAGE_STRIDE +
              r * (data.length / s.metadata.bytes_per_texel / PAGE_SIZE) +
              PAGE_SIZE ≤ data.length then
        .ok (rowFileBytes (data.length / s.metadata.bytes_per_texel / PAGE_SIZE)
          (impliedPageCount s.metadata.bytes_per_texel data.length) data)
      else .panic "range end index out of range for slice"
  else .panic "assertion failed: page_count == side_len >> mip"

theorem rowFileBytes_length (tw pc : Nat) (data : List Nat)
    (hb : ∀ p < pc, ∀ r < PAGE_SIZE,
      p * PAGE_STRIDE + r * tw + PAGE_SIZE ≤ data.length) :
    (rowFileBytes tw pc data).length = pc * (PAGE_SIZE * PAGE_SIZE) := by
  unfold rowFileBytes
  rw [List.length_flatMap]
  have hinner : ∀ p < pc,
      ((List.range PAGE_SIZE).flatMap fun r =>
        (data.drop (p * PAGE_STRIDE + r * tw)).take PAGE_SIZE).length =
      PAGE_SIZE * PAGE_SIZE := by
    intro p hp
    rw [List.length_flatMap]
    have hmap : (List.range PAGE_SIZE).map
        (List.length ∘ fun r => (data.drop (p * PAGE_STRIDE + r * tw)).take
          PAGE_SIZE) = List.replicate PAGE_SIZE PAGE_SIZE := by
      rw [List.eq_replicate_iff]
      constructor
      · simp
      · intro b hbmem
        rcases List.mem_map.mp hbmem with ⟨r, hr, hrb⟩
        rw [List.mem_range] at hr
        have hrange := hb p hp r hr
        rw [← hrb]
        simp only [Function.comp_apply, List.length_take, List.length_drop]
        omega
    rw [hmap, List.sum_replicate, smul_eq_mul]
  have hmap2 : (List.range pc).map
      (List.length ∘ fun page => (List.range PAGE_SIZE).flatMap fun page_row =>
        (data.drop (page * PAGE_STRIDE + page_row * tw)).take PAGE_SIZE) =
      List.replicate pc (PAGE_SIZE * PAGE_SIZE) := by
    rw [List.eq_replicate_iff]
    constructor
    · simp
    · intro b hbmem
      rcases List.mem_map.mp hbmem with ⟨p, hp, hpb⟩
      rw [List.mem_range] at hp
      rw [← hpb]
      exact hinner p hp
  rw [hmap2, List.sum_replicate, smul_eq_mul]

theorem write_row_open_fails (s : TextureStorage) (mip row : Nat)
    (data : List Nat) (hbpt : s.metadata.bytes_per_texel = 4)
    (h8 : ¬(data.length / 4 / PAGE_SIZE < 2 * PAGE_BORDER_SIZE))
    (hpc : impliedPageCount 4 data.length = s.metadata.side_len >>> mip) :
    s.write_row mip row data = .err .ioError := by
  rw [TextureStorage.write_row, hbpt, if_neg h8, if_pos hpc]
  rfl

/-- Claim C8: calling `TextureStorage::write_row` with a buffer whose implied
page count differs from `side_len >> mip` is fatal — the code panics (the
`assert_eq!`, or the preceding `usize` subtraction when the buffer is too
short even for the borders) and no file content is produced; conversely, for
every buffer whose implied page count matches, the assertion never fires:
execution passes it and reaches the file open, which fails with the
deterministic `InvalidInput` I/O error of the truncate-without-write-access
options (the defect recorded under claim C3) — an `Err`, not a panic.
`bytes_per_texel = 4` is the only supported texel format and
`side_len >> mip ≥ 1` holds for every mip level of a valid texture. -/
theorem write_row_precondition (s : TextureStorage) (mip row : Nat)
    (data : List Nat) (hbpt : s.metadata.bytes_per_texel = 4)
    (hpos : 1 ≤ s.metadata.side_len >>> mip) :
    (impliedPageCount 4 data.length ≠ s.metadata.side_len >>> mip →
      (s.write_row mip row data).isPanic = true) ∧
    (impliedPageCount 4 data.length = s.metadata.side_len >>> mip →
      s.write_row mip row data = .err .ioError) := by
  constructor
  · intro hne
    rw [TextureStorage.write_row, hbpt]
    by_cases hu : data.length / 4 / PAGE_SIZE < 2 * PAGE_BORDER_SIZE
    · rw [if_pos hu]
      rfl
    · rw [if_neg hu, if_neg hne]
      rfl
  · intro hEq
    have htw : 128 ≤ data.length / 4 / PAGE_SIZE := by
      simp only [PAGE_SIZE]
      by_contra hc
      push_neg at hc
      have h0 : (data.length / 4 / 128 - 2 * PAGE_BORDER_SIZE) /
          PAGE_STRIDE = 0 := by
        apply Nat.div_eq_of_lt
        simp only [PAGE_BORDER_SIZE, PAGE_STRIDE, PAGE_SIZE]
        omega
      rw [impliedPageCount] at hEq
      simp only [PAGE_SIZE] at hEq
      rw [h0] at hEq
      omega
    have hu : ¬(data.length / 4 / PAGE_SIZE < 2 * PAGE_BORDER_SIZE) := by
      simp only [PAGE_SIZE, PAGE_BORDER_SIZE] at htw ⊢
      omega
    exact write_row_open_fails s mip row data hbpt hu hEq

/-- Witness for claim C8: on a texture with one page per side at mip 0, an
empty buffer violates the precondition and panics, while a
`4 * 128 * 128`-byte buffer satisfies it — the assertion passes and the
outcome is the open's I/O error, not a panic. -/
theorem write_row_precondition_witness :
    ((TextureStorage.mk "texture" ⟨1, 4, 0⟩).write_row 0 0 []).isPanic =
      true ∧
    (TextureStorage.mk "texture" ⟨1, 4, 0⟩).write_row 0 0
      (List.replicate 65536 0) = .err .ioError := by
  constructor
  · exact (write_row_precondition _ 0 0 [] rfl (by decide)).1 (by decide)
  · refine (write_row_precondition _ 0 0 (List.replicate 65536 0) rfl
      (by decide)).2 ?hpc
    have hlen : (List.replicate 65536 (0 : Nat)).length = 65536 :=
      List.length_replicate 65536 0
    rw [hlen]
    decide

/-- Claim C3 refuted on the code (code bug): on a one-page-per-side texture
with `bytes_per_texel = 4`, `write_row` at mip 0, row 0 accepts a
`65536 = 4 * 128 * 128` byte buffer (implied page count 1), yet no row file
of the claimed size is produced.  First, the open itself fails —
`OpenOptions::new().truncate(true)` has no access mode — so `write_row`
returns `Err(IoError)` and writes nothing at all.  Second, even granting a
successful open, the write loop's slice offsets
`column_offset + page_row * texture_texel_width .. + PAGE_SIZE` are computed
in texels but used as byte indices, so the bytes it would emit
(`rowFileBytes` at the `texture_texel_width = 128` and `page_count = 1` this
input yields) total `1 * 128 * 128 = 16384`, not the
`page_count * PAGE_SIZE * PAGE_SIZE * bytes_per_texel = 65536` named by the
claim. -/
theorem write_row_file_size_bug :
    (TextureStorage.mk "texture" ⟨1, 4, 0⟩).write_row 0 0
      (List.replicate 65536 0) = .err .ioError ∧
    (rowFileBytes 128 1 (List.replicate 65536 0)).length = 16384 ∧
    (16384 : Nat) ≠ 1 * PAGE_SIZE * PAGE_SIZE * 4 := by
  have hlen : (List.replicate 65536 (0 : Nat)).length = 65536 :=
    List.length_replicate 65536 0
  refine ⟨?herr, ?hsize, by norm_num [PAGE_SIZE]⟩
  case herr =>
    exact write_row_open_fails _ 0 0 _ rfl
      (by rw [hlen]; decide) (by rw [hlen]; decide)
  case hsize =>
    have hb : ∀ p < (1 : Nat), ∀ r < PAGE_SIZE,
        p * PAGE_STRIDE + r * 128 + PAGE_SIZE ≤
          (List.replicate 65536 (0 : Nat)).length := by
      rw [hlen]
      intro p hp r hr
      simp only [PAGE_SIZE, PAGE_STRIDE, PAGE_BORDER_SIZE] at *
      omega
    rw [rowFileBytes_length 128 1 _ hb]
    norm_num [PAGE_SIZE]

/-- Modelled from the spec: the metadata sidecar serialization.  The actual
codec (`miniserde::json::to_string` / `from_str`) lives in the external
`miniserde` crate, not in this repository's `src/`; per spec §4.1 and §6 the
sidecar is a structured text file with fields `side_len`, `bytes_per_texel`,
`mip_levels`, which this model represents as a field-name/value list. -/
def serializeMetadata (m : TextureMetadata) : List (String × Nat) :=
  [("side_len", m.side_len), ("bytes_per_texel", m.bytes_per_texel),
    ("mip_levels", m.mip_levels)]

/-- Modelled from the spec: parsing the metadata sidecar.  Mirrors
`miniserde::json::from_str::<TextureMetadata>` (external crate): succeeds
exactly when all three fields are present, and fails (a `Deserialization`
error upstream) otherwise. -/
def deserializeMetadata (fields : List (String × Nat)) :
    Option TextureMetadata :=
  match fields.lookup "side_len", fields.lookup "bytes_per_texel",
      fields.lookup "mip_levels" with
  | some s, some b, some m => some ⟨s, b, m⟩
  | _, _, _ => none

/-- The file system visible to `TextureStorage`: a map from paths to parsed
sidecar contents. -/
abbrev Fs := List (String × List (String × Nat))

/-- The sidecar path `{directory}/{metadata_file}.json` with the default
metadata file name `"meta"` (both claims pass `None` for it). -/
def metaPath (directory : String) : String := directory ++ "/meta.json"

/-- `TextureStorage::new(metadata, directory, None)` from `src/storage.rs`
lines 31–50 on the file-system model: creates the directory, writes the
serialized metadata to the sidecar, and returns the storage handle.  OS-level
I/O failures (unreachable in the model) are not represented. -/
def TextureStorage.new (metadata : TextureMetadata) (directory : String)
    (fs : Fs) : TextureStorage × Fs :=
  (⟨directory, metadata⟩, (metaPath directory, serializeMetadata metadata) :: fs)

/-- `TextureStorage::load(directory, None)` from `src/storage.rs` lines
54–74: opens the sidecar (an I/O error if absent), parses it (a
`Deserialization` error if malformed), and returns the storage handle. -/
def TextureStorage.load (directory : String) (fs : Fs) :
    Outcome TextureStorage :=
  match fs.lookup (metaPath directory) with
  | none => .err .ioError
  | some contents =>
    match deserializeMetadata contents with
    | none => .err .deserialization
    | some metadata => .ok ⟨directory, metadata⟩

/-- Claim C7: `TextureStorage::new(meta, dir, None)` followed by
`TextureStorage::load(dir, None)` round-trips: the loaded storage has the
same directory and metadata (all three fields survive the sidecar). -/
theorem new_load_roundtrip (m : TextureMetadata) (d : String) (fs : Fs) :
    TextureStorage.load d (TextureStorage.new m d fs).2 = .ok ⟨d, m⟩ := by
  simp [TextureStorage.load, TextureStorage.new, metaPath, serializeMetadata,
    deserializeMetadata, List.lookup]

/-- Claim C9: `TextureStorage::load` returns an error and never panics: an
I/O error when the sidecar file is missing, a `Deserialization` error when it
is present but fails to parse; in either case, no `TextureStorage` value is
produced (the result is an `err`, not an `ok`). -/
theorem load_error_cases (fs : Fs) (d : String) :
    (fs.lookup (metaPath d) = none →
      TextureStorage.load d fs = .err .ioError) ∧
    (∀ c, fs.lookup (metaPath d) = some c → deserializeMetadata c = none →
      TextureStorage.load d fs = .err .deserialization) ∧
    (TextureStorage.load d fs).isPanic = false := by
  refine ⟨?h1, ?h2, ?h3⟩
  · intro h
    simp [TextureStorage.load, h]
  · intro c h hd
    simp [TextureStorage.load, h, hd]
  · rcases hl : fs.lookup (metaPath d) with _ | c
    · simp [TextureStorage.load, hl, Outcome.isPanic]
    · rcases hd : deserializeMetadata c with _ | m <;>
        simp [TextureStorage.load, hl, hd, Outcome.isPanic]

/-- Witness for claim C9: loading from an empty file system yields the I/O
error. -/
theorem load_error_cases_witness :
    TextureStorage.load "texture" [] = .err .ioError :=
  (load_error_cases [] "texture").1 rfl

/-- `Read::read_exact(&mut buffer[s..e])`: the slice expression panics unless
`s ≤ e ≤ buffer.len()`; the read fails with an I/O error (UnexpectedEof) if
the stream has fewer than `e - s` bytes; otherwise the slice is overwritten
with the next `e - s` stream bytes. -/
def readExact (buffer : List Nat) (s e : Nat) (stream : List Nat) :
    Outcome (List Nat × List Nat) :=
  if s ≤ e ∧ e ≤ buffer.length then
    if e - s ≤ stream.length then
      .ok (buffer.take s ++ stream.take (e - s) ++ buffer.drop e,
        stream.drop (e - s))
    else .err .ioError
  else .panic "range end index out of range for slice"

/-- The row-pair loop of `TextureStorage::import_texture` (`src/storage.rs`
lines 117–138), modelled on the buffer/stream state: each iteration reads
into `buffer[buffer_border_offset..]`, takes the `first_row` and `second_row`
slices (the latter based on the vector's capacity `cap`), and hands them to
the mip generator; after the loop the bottom border is copied to the top
(`copy_within`).  The generator's storage writes are modelled separately by
the `MipGen` functions; here only buffer/stream consumption and the panics
are tracked. -/
def importRows (ttw bbo cap : Nat) :
    Nat → List Nat → List Nat → Outcome Unit
  | 0, buffer, _ =>
    if cap - bbo ≤ buffer.length then .ok ()
    else .panic "copy_within index out of bounds"
  | n + 1, buffer, stream =>
    match readExact buffer bbo buffer.length stream with
    | .panic m => .panic m
    | .err e => .err e
    | .ok (buffer2, stream2) =>
      if PAGE_SIZE * ttw ≤ buffer2.length then
        if cap - PAGE_SIZE * ttw ≤ buffer2.length then
          importRows ttw bbo cap n buffer2 stream2
        else .panic "slice start index out of range"
      else .panic "range end index out of range for slice"

/-- `TextureStorage::import_texture` from `src/storage.rs` lines 98–141:
computes `texture_texel_width` and `buffer_border_offset`, allocates the
working buffer with `Vec::with_capacity` — which sets its capacity but leaves
its length 0, so the buffer is the empty list — and then reads the top border
into `buffer[..buffer_border_offset]` before entering the row-pair loop. -/
def importTexture (meta : TextureMetadata) (stream : List Nat) :
    Outcome Unit :=
  let texture_texel_width := meta.side_len * PAGE_STRIDE + 2 * PAGE_BORDER_SIZE
  let buffer_border_offset := texture_texel_width * PAGE_BORDER_SIZE
  let cap := meta.bytes_per_texel * texture_texel_width *
    (PAGE_STRIDE * 2 + PAGE_BORDER_SIZE * 2)
  match readExact [] 0 buffer_border_offset stream with
  | .panic m => .panic m
  | .err e => .err e
  | .ok (buffer, stream2) =>
    importRows texture_texel_width buffer_border_offset cap
      (meta.side_len / 2) buffer stream2

/-- Claim C4: for every metadata with `side_len ≥ 1` (indeed for every
`side_len`), `import_texture` panics before consuming any stream bytes: the
working buffer has length 0 after `Vec::with_capacity`, and the first
`read_exact` slices `buffer[..buffer_border_offset]` with
`buffer_border_offset = (side_len * PAGE_STRIDE + 2 * PAGE_BORDER_SIZE) *
PAGE_BORDER_SIZE > 0`, an out-of-bounds range on the empty vector.  The
second conjunct shows the outcome is independent of the stream — no byte of
it is consumed. -/
theorem import_texture_panics (meta : TextureMetadata) (stream : List Nat)
    (h : 1 ≤ meta.side_len) :
    (importTexture meta stream).isPanic = true ∧
    importTexture meta stream = importTexture meta [] := by
  have hbbo : ¬((0 : Nat) ≤
      (meta.side_len * PAGE_STRIDE + 2 * PAGE_BORDER_SIZE) *
        PAGE_BORDER_SIZE ∧
      (meta.side_len * PAGE_STRIDE + 2 * PAGE_BORDER_SIZE) *
        PAGE_BORDER_SIZE ≤ ([] : List Nat).length) := by
    simp only [List.length_nil, PAGE_STRIDE, PAGE_BORDER_SIZE, PAGE_SIZE]
    omega
  constructor
  · simp only [importTexture, readExact, if_neg hbbo, Outcome.isPanic]
  · simp only [importTexture, readExact, if_neg hbbo]

/-- Witness for claim C4 on a two-page-per-side texture and a nonempty
stream. -/
theorem import_texture_panics_witness :
    (importTexture ⟨2, 4, 1⟩ [7, 7, 7]).isPanic = true ∧
    importTexture ⟨2, 4, 1⟩ [7, 7, 7] = importTexture ⟨2, 4, 1⟩ [] :=
  import_texture_panics ⟨2, 4, 1⟩ [7, 7, 7] (by decide)

/-- The operations `import_texture` performs, in the order they appear in the
source (`src/storage.rs` lines 114–140): read the top border; then for each
`half_texture_row` in `0 .. side_len / 2`, read the next two rows and hand
the pair to the mip generator at first index `half_texture_row * 2`; after
the loop completes, copy the bottom border to the top border.  This trace
model records statement order only, idealizing away the buffer-length panic
proved in `import_texture_panics`. -/
inductive ImportOp where
  | readBorder
  | readPair (half_row : Nat)
  | writePair (first_index : Nat)
  | copyBorder
deriving DecidableEq, Repr

/-- Statement-order trace of `import_texture` for a texture of `side_len`
pages per side; see `ImportOp`. -/
def importOps (side_len : Nat) : List ImportOp :=
  [ImportOp.readBorder] ++
    ((List.range (side_len / 2)).flatMap fun half =>
      [ImportOp.readPair half, ImportOp.writePair (half * 2)]) ++
    [ImportOp.copyBorder]

/-- Claim C10 refuted on the code (code bug): in `import_texture` the
bottom-border-to-top-border `copy_within` is performed once, after the loop
over all row pairs has finished (where the buffer is immediately dropped),
not between iterations.  For `side_len = 4` (two iterations) the trace shows
the second pair is read with no border recycling after the first pair's
writes, and the single `copyBorder` is the final operation. -/
theorem import_order_bug :
    importOps 4 = [ImportOp.readBorder, ImportOp.readPair 0,
      ImportOp.writePair 0, ImportOp.readPair 1, ImportOp.writePair 2,
      ImportOp.copyBorder] ∧
    (importOps 4).count ImportOp.copyBorder = 1 ∧
    (importOps 4).getLast? = some ImportOp.copyBorder := by
  decide

/-- The `MipLevelGen` struct defined inside `src/storage.rs` (lines 155–159,
the one actually used by `import_texture`): `next_mip`, an optional exclusively
owned next-coarser generator; `stored_row`, the buffered odd row awaiting its
partner (row bytes and row index); `mip_level`. -/
inductive MipGen where
  | mk (next_mip : Option MipGen) (stored_row : Option (List Nat × Nat))
      (mip_level : Nat)

def MipGen.next_mip : MipGen → Option MipGen
  | .mk n _ _ => n

def MipGen.stored_row : MipGen → Option (List Nat × Nat)
  | .mk _ s _ => s

def MipGen.mip_level : MipGen → Nat
  | .mk _ _ m => m

/-- `MipLevelGen::from_mip(mip, base_mip)` from `src/storage.rs` lines
161–170: `next_mip = (mip < base_mip).then(|| from_mip(mip, base_mip + 1))`.
The Rust recursion has no decreasing measure — whenever `mip < base_mip`
holds it also holds for `base_mip + 1`, so that branch recurses forever; the
`fuel` argument makes the embedding total, with `none` standing for
non-termination.  For the call the importer makes (`base_mip = 0`) the
condition is false at once and one unit of fuel suffices. -/
def MipGen.from_mip (fuel mip base_mip : Nat) : Option MipGen :=
  match fuel with
  | 0 => none
  | fuel + 1 =>
    if mip < base_mip then
      match MipGen.from_mip fuel mip (base_mip + 1) with
      | none => none
      | some g => some (.mk (some g) none base_mip)
    else some (.mk none none base_mip)

mutual

/-- `MipLevelGen::write_row` from `src/storage.rs` lines 172–190: records the
`storage.write_row(self.mip_level, index, &row)` call as an event
`(mip_level, index)`, then either buffers the row (asserting the index is
even) or pairs it with the buffered row and cascades.  `mipData` abstracts
the `mip_two_rows` free function (2× downsampling via the external `image`
crate); `fuel` bounds the recursion depth along the chain and is spent one
unit per hop. -/
def MipGen.write_row_events (mipData : List Nat → List Nat → List Nat) :
    Nat → MipGen → List Nat → Nat → Outcome (MipGen × List (Nat × Nat))
  | 0, _, _, _ => .panic "recursion fuel exhausted"
  | fuel + 1, g, row, index =>
    match hs : g.stored_row with
    | none =>
      if index % 2 = 0 then
        .ok (.mk g.next_mip (some (row, index)) g.mip_level,
          [(g.mip_level, index)])
      else .panic "assertion failed: index % 2 == 0"
    | some (stored, stored_index) =>
      match MipGen.mip_two_rows_events mipData fuel
          (.mk g.next_mip none g.mip_level) stored row stored_index with
      | .ok (g2, events) => .ok (g2, (g.mip_level, index) :: events)
      | .err e => .err e
      | .panic m => .panic m

/-- `MipLevelGen::mip_two_rows` from `src/storage.rs` lines 192–206: asserts
no row is buffered and the first index is even, computes the downsampled row
(abstracted as `mipData`), and, when a next generator exists, forwards it via
`write_row` at `first_index / 2`. -/
def MipGen.mip_two_rows_events (mipData : List Nat → List Nat → List Nat) :
    Nat → MipGen → List Nat → List Nat → Nat → Outcome (MipGen × List (Nat × Nat))
  | 0, _, _, _, _ => .panic "recursion fuel exhausted"
  | fuel + 1, g, row0, row1, first_index =>
    if g.stored_row.isNone then
      if first_index % 2 = 0 then
        match g.next_mip with
        | none => .ok (g, [])
        | some next =>
          match MipGen.write_row_events mipData fuel next (mipData row0 row1)
              (first_index / 2) with
          | .ok (next2, events) =>
            .ok (.mk (some next2) g.stored_row g.mip_level, events)
          | .err e => .err e
          | .panic m => .panic m
      else .panic "assertion failed: first_index % 2 == 0"
    else .panic "assertion failed: self.stored_row.is_none()"

end

/-- `MipLevelGen::write_two_rows` from `src/storage.rs` lines 212–222:
persists both rows at this level (events `(mip_level, first_index)` and
`(mip_level, first_index + 1)`), then cascades via `mip_two_rows`. -/
def MipGen.write_two_rows_events (mipData : List Nat → List Nat → List Nat)
    (fuel : Nat) (g : MipGen) (row0 row1 : List Nat) (first_index : Nat) :
    Outcome (MipGen × List (Nat × Nat)) :=
  match MipGen.mip_two_rows_events mipData fuel g row0 row1 first_index with
  | .ok (g2, events) =>
    .ok (g2, (g.mip_level, first_index) :: (g.mip_level, first_index + 1) ::
      events)
  | .err e => .err e
  | .panic m => .panic m

/-- Claim C1 refuted on the code (code bug): the generator chain that
`import_texture` builds, `MipLevelGen::from_mip(mip_levels, 0)`, is a single
level-0 node for every `mip_levels` — the guard `mip < base_mip` (storage.rs
line 164) is inverted (compare the dead sibling file
`src/storage/mip_generator.rs`, which uses `mip > base_mip`), and
`mip_levels < 0` is false — so `next_mip` is `None`, `mip_two_rows` never
forwards a coarser row, and every pair handed over by the importer produces
storage writes at mip level 0 only: no complete mip chain is ever written
(and `import_texture` itself panics before reaching the generator, see
`import_texture_panics`). -/
theorem mip_chain_single_level (mip fuel j : Nat)
    (mipData : List Nat → List Nat → List Nat) (row0 row1 : List Nat) :
    MipGen.from_mip (fuel + 1) mip 0 = some (.mk none none 0) ∧
    MipGen.write_two_rows_events mipData (fuel + 1) (.mk none none 0)
      row0 row1 (2 * j) =
      .ok (.mk none none 0, [(0, 2 * j), (0, 2 * j + 1)]) := by
  constructor
  · rw [MipGen.from_mip]
    simp
  · rw [MipGen.write_two_rows_events, MipGen.mip_two_rows_events]
    simp [MipGen.stored_row, MipGen.next_mip, MipGen.mip_level,
      Nat.mul_mod_right]
